import Mathlib

/-
  Formal model of the LimitedMediaEncoder job server (src/server.py).

  The server keeps three pieces of mutable state:
    * JOBS        : a dict from ticket id to a job record        (line 21)
    * JOB_QUEUE   : a FIFO queue of ticket ids                   (line 22)
    * the on-disk TEMP_DIR, holding one workspace folder per job (lines 18-20)

  We embed this state as `ServerState` below, with dicts as association
  lists (Python dicts preserve insertion order; keys are unique because
  every key is a fresh uuid).  The HTTP handlers `encode_start`,
  `encode_status`, `encode_result` and the worker-loop body `job_worker`
  are embedded as pure state transformers.  External effects are
  parameters: the parse result of `json.loads` on the submitted options
  text, and the outcome of `subprocess.run` on the constructed ffmpeg
  command (`InvokeOutcome`).  JSON numbers are modelled as integers (no
  claim exercises fractional values).
-/

/-- JSON values, the image of `json.loads` / the domain of `json.dump`
(server.py uses the `json` module for the options document). -/
inductive JsonV : Type where
  | jnull : JsonV
  | jbool : Bool → JsonV
  | jnum : Int → JsonV
  | jstr : String → JsonV
  | jarr : List JsonV → JsonV
  | jobj : List (String × JsonV) → JsonV

/-- Python `dict.get(key, default)` without the default: look a key up in
a JSON object; `none` when the key is absent or the value is not an
object.  (On a non-object, Python `options.get` raises `AttributeError`;
the worker embedding below checks for an object before calling this.) -/
def optGet : JsonV → String → Option JsonV
  | .jobj fields, key => aux fields key
  | _, _ => none
where
  aux : List (String × JsonV) → String → Option JsonV
    | [], _ => none
    | (k, v) :: rest, key => if k = key then some v else aux rest key

/-- Python `str()` on the JSON scalars that reach the `str(...)` call
sites of the worker (lines 54 and 56 of server.py).  The textual
rendering of container values is abbreviated: no claim evaluates
`str()` on an array- or object-valued option. -/
def pyStr : JsonV → String
  | .jnull => "None"
  | .jbool true => "True"
  | .jbool false => "False"
  | .jnum n => toString n
  | .jstr s => s
  | .jarr _ => "[…]"
  | .jobj _ => "\x7b…\x7d"

/-- Python truthiness of a JSON value, as used by
`"2" if stereo else "1"` on line 57 of server.py. -/
def pyTruthy : JsonV → Bool
  | .jnull => false
  | .jbool b => b
  | .jnum n => n != 0
  | .jstr s => s != ""
  | .jarr xs => !xs.isEmpty
  | .jobj fs => !fs.isEmpty

/-- Python `str.replace(pat, rep)` specialised to a single-character
pattern: replace every occurrence of `pat` by `rep`, left to right.
Line 66 of server.py performs two such replaces. -/
def replaceChar (pat : Char) (rep : List Char) : List Char → List Char
  | [] => []
  | c :: cs => if c = pat then rep ++ replaceChar pat rep cs
               else c :: replaceChar pat rep cs

/-- Line 66 of server.py:
`str(srt_path).replace("\\", "\\\\").replace(":", "\\:")` —
first double every backslash, then put a backslash before every colon. -/
def escapeForFilter (p : String) : String :=
  String.mk (replaceChar ':' ['\\', ':'] (replaceChar '\\' ['\\', '\\'] p.data))

/-- Specification-side escaping: every backslash and every colon of the
path is escaped with a single preceding backslash, in one pass. -/
def specEscapeChars : List Char → List Char
  | [] => []
  | c :: cs => if c = '\\' ∨ c = ':' then '\\' :: c :: specEscapeChars cs
               else c :: specEscapeChars cs

/-- Specification-side escaping on strings. -/
def specEscape (p : String) : String :=
  String.mk (specEscapeChars p.data)

/-- The size-capping scale filter of lines 60 and 68 of server.py. -/
def scaleFilter : String := "scale=\x27min(3840,iw)\x27:-2"

/-- Lines 59-68 of server.py: the `-vf` expression.  Without a subtitle
file only the scale filter; with one, the scale filter followed by a
subtitle burn-in whose embedded path is escaped by `escapeForFilter`. -/
def vf_for (srt_exists : Bool) (srt_path : String) : String :=
  if !srt_exists then scaleFilter
  else scaleFilter ++ ",subtitles=\x27" ++ escapeForFilter srt_path ++ "\x27"

/-- Lines 53-86 of server.py: read the recognised options (with their
defaults) out of the options document and build the ffmpeg argument
list.  Elements are `JsonV` because Python puts the raw `options.get`
result for `ffmpeg_preset` into the list unconverted; every other
element is a string. -/
def worker_command (options : JsonV) (vf : String) (input_file output_file : String) :
    List JsonV :=
  let ffmpeg_preset := (optGet options "ffmpeg_preset").getD (.jstr "medium")
  let crf := pyStr ((optGet options "constant_rate_factor").getD (.jnum 23))
  let stereo := (optGet options "stereo").getD (.jbool true)
  let audio_bitrate := pyStr ((optGet options "audio_bitrate").getD (.jnum 128))
  let channels := if pyTruthy stereo then "2" else "1"
  [.jstr "ffmpeg",
   .jstr "-y",
   .jstr "-i", .jstr input_file,
   .jstr "-vf", .jstr vf,
   .jstr "-c:v", .jstr "libx264",
   .jstr "-preset", ffmpeg_preset,
   .jstr "-profile:v", .jstr "high",
   .jstr "-level", .jstr "4.2",
   .jstr "-pix_fmt", .jstr "yuv420p",
   .jstr "-crf", .jstr crf,
   .jstr "-movflags", .jstr "+faststart",
   .jstr "-c:a", .jstr "aac",
   .jstr "-b:a", .jstr (audio_bitrate ++ "k"),
   .jstr "-ac", .jstr channels,
   .jstr output_file]

/-- Job status strings: "queued", "processing", "done", "failed". -/
inductive Status : Type where
  | queued : Status
  | processing : Status
  | done : Status
  | failed : Status
deriving DecidableEq, Repr

/-- One workspace folder under TEMP_DIR: the four files the server ever
reads or writes there.  `options_json` holds the parsed content of
`options.json` (`none` = the file is absent or unreadable). -/
structure Workspace : Type where
  input_file : Option String := none
  srt_file : Option String := none
  options_json : Option JsonV := none
  output_mp4 : Option String := none

/-- The fresh workspace right after `mkdir` (line 116 of server.py). -/
def emptyWorkspace : Workspace := {}

/-- One entry of the JOBS dict (line 21 of server.py). -/
structure JobRecord : Type where
  status : Status
  folder : String
  output_file : Option String := none
  error : Option String := none
  worker : Option String := none

/-- Association lists standing for Python dicts (string keys). -/
abbrev Dict (α : Type) := List (String × α)

/-- Dict lookup: first entry with the given key. -/
def aget {α : Type} : Dict α → String → Option α
  | [], _ => none
  | (k, v) :: rest, key => if k = key then some v else aget rest key

/-- Dict assignment `d[k] = v`: replace in place, or append when absent. -/
def aset {α : Type} : Dict α → String → α → Dict α
  | [], k, v => [(k, v)]
  | (k1, v1) :: rest, k, v =>
      if k1 = k then (k, v) :: rest else (k1, v1) :: aset rest k v

/-- In-place mutation of an existing entry (a no-op when absent; Python
field writes through a dict reference that was popped from JOBS mutate
an unreachable object). -/
def aupd {α : Type} : Dict α → String → (α → α) → Dict α
  | [], _, _ => []
  | (k1, v1) :: rest, k, f =>
      if k1 = k then (k1, f v1) :: rest else (k1, v1) :: aupd rest k f

/-- Dict `pop` / directory removal: drop every entry with the key
(keys are unique in every state the server builds). -/
def aremove {α : Type} : Dict α → String → Dict α
  | [], _ => []
  | (k1, v1) :: rest, k =>
      if k1 = k then aremove rest k else (k1, v1) :: aremove rest k

/-- The whole mutable state of the server process: JOBS, JOB_QUEUE, the
TEMP_DIR contents, and a log of the ffmpeg argument lists handed to
`subprocess.run` (the worker's only outward interaction). -/
structure ServerState : Type where
  jobs : Dict JobRecord
  jobQueue : List String
  disk : Dict Workspace
  log : List (List JsonV)

/-- The state at process start: empty JOBS, empty queue, empty TEMP_DIR. -/
def init : ServerState := ⟨[], [], [], []⟩

/-- Line 115 of server.py: `job_folder = TEMP_DIR / ticket_id`. -/
def folderOf (ticket : String) : String := "temp/" ++ ticket

/-- Line 116 of server.py: `mkdir(parents=True, exist_ok=True)` —
create the folder when absent, leave it alone when present. -/
def diskMkdir (d : Dict Workspace) (k : String) : Dict Workspace :=
  match aget d k with
  | some _ => d
  | none => d ++ [(k, emptyWorkspace)]

/-- Response of POST /encode/start. -/
inductive StartResp : Type where
  | accepted : String → StartResp
  | missingInput : StartResp
deriving DecidableEq, Repr

/-- HTTP code of a start response: 200, or 400 for the client error
`Missing input_file` (line 121 of server.py). -/
def startHttpCode : StartResp → Nat
  | .accepted _ => 200
  | .missingInput => 400

/-- Observable effects of one `encode_start` call, in execution order. -/
inductive StartEvent : Type where
  | mkdirFolder : String → StartEvent
  | saveInput : String → StartEvent
  | saveSrt : String → StartEvent
  | writeOptions : String → JsonV → StartEvent
  | insertJob : String → StartEvent
  | enqueue : String → StartEvent

/-- Return value of the `encode_start` embedding: the HTTP response, the
state afterwards, and the ordered trace of effects. -/
structure StartOutcome : Type where
  resp : StartResp
  state : ServerState
  trace : List StartEvent

/-- Lines 111-153 of server.py, `encode_start`.  Parameters stand for
the request: the uploaded primary input and subtitle payloads
(`request.files`), and `options_loads`, the result of
`json.loads` on the `options` form field (`none` = `JSONDecodeError`;
an absent field defaults to the text `"\x7b\x7d"`, i.e. `some (.jobj [])`).
The `ticket_id` parameter stands for the fresh `uuid.uuid4()`. -/
def encode_start (s : ServerState) (ticket_id : String)
    (input_file : Option String) (srt_file : Option String)
    (options_loads : Option JsonV) : StartOutcome :=
  let job_folder := folderOf ticket_id
  let s1 : ServerState := { s with disk := diskMkdir s.disk job_folder }
  match input_file with
  | none => ⟨.missingInput, s1, [.mkdirFolder job_folder]⟩
  | some data =>
    let s2 : ServerState :=
      { s1 with disk := aupd s1.disk job_folder (fun w => { w with input_file := some data }) }
    let step3 : ServerState × List StartEvent :=
      match srt_file with
      | some srt =>
        ({ s2 with disk := aupd s2.disk job_folder (fun w => { w with srt_file := some srt }) },
         [.saveSrt job_folder])
      | none => (s2, [])
    let s3 := step3.1
    let options := options_loads.getD (.jobj [])
    let s4 : ServerState :=
      { s3 with disk := aupd s3.disk job_folder (fun w => { w with options_json := some options }) }
    let newJob : JobRecord := { status := .queued, folder := job_folder }
    let s5 : ServerState := { s4 with jobs := aset s4.jobs ticket_id newJob }
    let s6 : ServerState := { s5 with jobQueue := s5.jobQueue ++ [ticket_id] }
    ⟨.accepted ticket_id, s6,
     [.mkdirFolder job_folder, .saveInput job_folder] ++ step3.2 ++
       [.writeOptions job_folder options, .insertJob ticket_id, .enqueue ticket_id]⟩

/-- Response of GET /encode/status/<ticket_id>. -/
inductive StatusResp : Type where
  | notFound : StatusResp
  | statusInfo : String → Status → Option String → Option String → StatusResp
deriving DecidableEq, Repr

/-- HTTP code of a status response (404 for `Invalid ticket`). -/
def statusHttpCode : StatusResp → Nat
  | .notFound => 404
  | .statusInfo _ _ _ _ => 200

/-- Lines 156-167 of server.py, `encode_status`: a pure read of JOBS. -/
def encode_status (s : ServerState) (ticket_id : String) : StatusResp :=
  match aget s.jobs ticket_id with
  | none => .notFound
  | some job => .statusInfo ticket_id job.status job.worker job.error

/-- Response of GET /encode/result/<ticket_id>. -/
inductive ResultResp : Type where
  | notFound : ResultResp
  | notReady : ResultResp
  | fileResp : String → String → ResultResp
deriving DecidableEq, Repr

/-- HTTP code of a result response: 404 `Invalid ticket`,
400 `Job not completed`, 200 with the file. -/
def resultHttpCode : ResultResp → Nat
  | .notFound => 404
  | .notReady => 400
  | .fileResp _ _ => 200

/-- The deferred cleanup scheduled by a successful delivery
(lines 182-194 of server.py): which folder to remove from disk and
which ticket to pop from JOBS. -/
structure CleanupTask : Type where
  ticket : String
  folder : String
deriving DecidableEq, Repr

/-- Lines 188-189 of server.py: `shutil.rmtree(folder, ignore_errors=True)`
followed by `JOBS.pop(ticket_id, None)` — both tolerate the target
already being gone. -/
def runCleanup (s : ServerState) (c : CleanupTask) : ServerState :=
  { s with disk := aremove s.disk c.folder, jobs := aremove s.jobs c.ticket }

/-- Lines 170-201 of server.py, `encode_result`.  The handler mutates
nothing itself; a successful delivery returns the `CleanupTask` it
schedules (the code runs it on a daemon thread after a short grace
delay; `runCleanup` applies it when it takes effect). -/
def encode_result (s : ServerState) (ticket_id : String) :
    ResultResp × Option CleanupTask :=
  match aget s.jobs ticket_id with
  | none => (.notFound, none)
  | some job =>
    if job.status = Status.done then
      match job.output_file with
      | some p => (.fileResp p (ticket_id ++ ".mp4"), some ⟨ticket_id, job.folder⟩)
      | none => (.notReady, none)
    else (.notReady, none)

/-- Outcome of `subprocess.run(command, ...)` on line 91 of server.py:
either a completed process (return code, captured stderr, and the
content ffmpeg left in `output.mp4`, if any), or an exception raised by
the invocation itself (tool missing, process unstartable). -/
inductive InvokeOutcome : Type where
  | completed : Int → String → Option String → InvokeOutcome
  | raised : String → InvokeOutcome

/-- Result of lines 32-46 of server.py: the dequeue-and-claim prefix of
the worker loop body. -/
inductive ClaimOutcome : Type where
  | blocked : ClaimOutcome
  | skipped : ServerState → ClaimOutcome
  | claimed : ServerState → String → ClaimOutcome

/-- Lines 32-46 of server.py: block on an empty queue; pop a ticket;
`continue` when JOBS has no record for it (line 34); otherwise stamp
the worker's name and set the status to `processing`. -/
def worker_claim (s : ServerState) (workerName : String) : ClaimOutcome :=
  match s.jobQueue with
  | [] => .blocked
  | ticket :: rest =>
    match aget s.jobs ticket with
    | none => .skipped { s with jobQueue := rest }
    | some job =>
      .claimed
        { s with
          jobQueue := rest,
          jobs := aset s.jobs ticket { job with worker := some workerName, status := .processing } }
        ticket

/-- The ffmpeg argument list the worker builds for the job of ticket-
record `j` in state `s` whose options document has fields `fields`:
lines 53-86 of server.py instantiated with that job's workspace (the
subtitle-existence check of line 59 reads the workspace on disk). -/
def workerCommandOf (s : ServerState) (j : JobRecord) (fields : List (String × JsonV)) :
    List JsonV :=
  worker_command (.jobj fields)
    (vf_for (((aget s.disk j.folder).bind (fun w => w.srt_file)).isSome)
      (j.folder ++ "/input.srt"))
    (j.folder ++ "/input_file") (j.folder ++ "/output.mp4")

/-- Lines 48-103 of server.py: the rest of the worker loop body for a
claimed ticket.  `Except.error` models an exception escaping the loop
body uncaught (the `try` of line 90 covers only `subprocess.run` and
the terminal-status writes): opening a missing `options.json` raises
`FileNotFoundError` (line 50), and `options.get` on a document that is
not an object raises `AttributeError` (line 53).  Inside the `try`,
a completed process with return code 0 yields `done` + the output path,
any other completion yields `failed` + the captured stderr, and a
raised invocation yields `failed` + the exception text. -/
def worker_finish (s : ServerState) (ticket : String) (invoke : InvokeOutcome) :
    Except String ServerState :=
  match aget s.jobs ticket with
  | none => .ok s
  | some job =>
    match (aget s.disk job.folder).bind (fun w => w.options_json) with
    | none => .error (job.folder ++ "/options.json: FileNotFoundError")
    | some (.jobj fields) =>
      match invoke with
      | .completed rc stderr ffout =>
        if rc = 0 then
          .ok { s with
                log := s.log ++ [workerCommandOf s job fields],
                disk := aupd s.disk job.folder (fun w => { w with output_mp4 := ffout }),
                jobs := aupd s.jobs ticket (fun j =>
                  { j with status := .done,
                           output_file := some (job.folder ++ "/output.mp4") }) }
        else
          .ok { s with
                log := s.log ++ [workerCommandOf s job fields],
                disk := aupd s.disk job.folder (fun w => { w with output_mp4 := ffout }),
                jobs := aupd s.jobs ticket (fun j =>
                  { j with status := .failed, error := some stderr }) }
      | .raised msg =>
        .ok { s with
              log := s.log ++ [workerCommandOf s job fields],
              jobs := aupd s.jobs ticket (fun j =>
                { j with status := .failed, error := some msg }) }
    | some _ => .error (job.folder ++ "/options.json: AttributeError")

/-- One full iteration of the worker loop (lines 31-103 of server.py):
`none` = the worker blocks on an empty queue; `some (.error e)` = an
exception escaped the loop body and the worker thread terminates;
`some (.ok s1)` = the iteration finished and the loop resumes. -/
def job_worker_iter (s : ServerState) (workerName : String) (invoke : InvokeOutcome) :
    Option (Except String ServerState) :=
  match worker_claim s workerName with
  | .blocked => none
  | .skipped s1 => some (.ok s1)
  | .claimed s1 ticket => some (worker_finish s1 ticket invoke)

/-- Atomic transitions of the server, each one handler call or worker
phase.  `start` carries the freshness of the uuid (uuid4 tickets are
never reused and never collide with an existing folder).  `finish`
carries the fact, true in every execution, that a claimed ticket's
record is in status `processing` when the worker finishes it. -/
inductive Step : ServerState → ServerState → Prop where
  | start (s : ServerState) (ticket : String) (input srt : Option String)
      (opts : Option JsonV)
      (hT : aget s.jobs ticket = none) (hQ : ticket ∉ s.jobQueue)
      (hF : aget s.disk (folderOf ticket) = none) :
      Step s (encode_start s ticket input srt opts).state
  | claim (s : ServerState) (w : String) (s1 : ServerState) (ticket : String)
      (h : worker_claim s w = .claimed s1 ticket) : Step s s1
  | skip (s : ServerState) (w : String) (s1 : ServerState)
      (h : worker_claim s w = .skipped s1) : Step s s1
  | finish (s : ServerState) (ticket : String) (invoke : InvokeOutcome)
      (j : JobRecord) (s1 : ServerState)
      (hj : aget s.jobs ticket = some j) (hp : j.status = .processing)
      (h : worker_finish s ticket invoke = .ok s1) : Step s s1
  | collect (s : ServerState) (ticket : String) (p n : String) (c : CleanupTask)
      (h : encode_result s ticket = (.fileResp p n, some c)) :
      Step s (runCleanup s c)

/-- States reachable from process start. -/
def Reachable (s : ServerState) : Prop :=
  Relation.ReflTransGen Step init s

/-- Allowed adjacent status observations of one record: unchanged, or
one link of the chain `queued → processing → (done | failed)`. -/
def statusStep (a b : Status) : Prop :=
  a = b ∨ (a = .queued ∧ b = .processing) ∨
    (a = .processing ∧ (b = .done ∨ b = .failed))

/-- Global well-formedness of the server state: every queued ticket has
a job record in status `queued`, records point at their own folders,
every queued ticket's workspace holds the primary input and a written
options document, and no ticket sits in the queue twice. -/
structure StateInv (s : ServerState) : Prop where
  queue_rec : ∀ t ∈ s.jobQueue, ∃ j, aget s.jobs t = some j ∧ j.status = .queued
  rec_folder : ∀ t j, aget s.jobs t = some j → j.folder = folderOf t
  queue_ws : ∀ t ∈ s.jobQueue, ∃ w, aget s.disk (folderOf t) = some w ∧
      w.input_file.isSome = true ∧ w.options_json.isSome = true
  queue_nodup : s.jobQueue.Nodup

/-- A queued job, its record and populated workspace, for witnesses. -/
def sampleQueuedJob : JobRecord := { status := .queued, folder := folderOf "t1" }

/-- A server state holding one queued job. -/
def sampleQueuedState : ServerState :=
  { jobs := [("t1", sampleQueuedJob)], jobQueue := ["t1"],
    disk := [(folderOf "t1", { input_file := some "vid", srt_file := none,
                               options_json := some (.jobj []), output_mp4 := none })],
    log := [] }

/-- A finished job whose artifact is ready for collection. -/
def sampleDoneJob : JobRecord :=
  { status := .done, folder := folderOf "t2",
    output_file := some (folderOf "t2" ++ "/output.mp4"), worker := some "JobWorker-1" }

/-- A server state holding one collectable job. -/
def sampleDoneState : ServerState :=
  { jobs := [("t2", sampleDoneJob)], jobQueue := [],
    disk := [(folderOf "t2", { input_file := some "vid", srt_file := none,
                               options_json := some (.jobj []),
                               output_mp4 := some "encoded" })],
    log := [] }

/-- A claimed job mid-processing with a well-formed options document. -/
def sampleProcJob : JobRecord :=
  { status := .processing, folder := folderOf "t3", worker := some "JobWorker-1" }

/-- A server state with one job being processed. -/
def sampleProcState : ServerState :=
  { jobs := [("t3", sampleProcJob)], jobQueue := [],
    disk := [(folderOf "t3", { input_file := some "vid", srt_file := none,
                               options_json := some (.jobj []), output_mp4 := none })],
    log := [] }

/-- The state after submitting a job whose options form field is the
valid JSON text `[]`: `json.loads` succeeds, so `json.dump` writes the
array to `options.json` and the submission is accepted. -/
def crashStartState : ServerState :=
  (encode_start init "t1" (some "movie") none (some (.jarr []))).state

/-- The state after a worker dequeues that ticket and marks it
`processing`. -/
def crashClaimedState : ServerState :=
  match worker_claim crashStartState "JobWorker-1" with
  | .claimed s2 _ => s2
  | _ => init

/-- Lookup after assignment. -/
theorem aget_aset {α : Type} (l : Dict α) (k key : String) (v : α) :
    aget (aset l k v) key = if k = key then some v else aget l key := by
  induction l with
  | nil => simp [aset, aget]
  | cons p rest ih =>
    obtain ⟨k1, v1⟩ := p
    by_cases h1 : k1 = k
    · subst h1
      by_cases h2 : k1 = key <;> simp [aset, aget, h2]
    · by_cases h2 : k1 = key
      · subst h2
        have hk : ¬ k = k1 := fun h => h1 h.symm
        simp [aset, aget, h1, hk]
      · simp [aset, aget, h1, h2, ih]

/-- Lookup after in-place mutation. -/
theorem aget_aupd {α : Type} (l : Dict α) (k key : String) (f : α → α) :
    aget (aupd l k f) key =
      if k = key then (aget l key).map f else aget l key := by
  induction l with
  | nil => simp [aupd, aget]
  | cons p rest ih =>
    obtain ⟨k1, v1⟩ := p
    by_cases h1 : k1 = k
    · subst h1
      by_cases h2 : k1 = key <;> simp [aupd, aget, h2]
    · by_cases h2 : k1 = key
      · subst h2
        have hk : ¬ k = k1 := fun h => h1 h.symm
        simp [aupd, aget, h1, hk]
      · simp [aupd, aget, h1, h2, ih]

/-- Lookup after removal. -/
theorem aget_aremove {α : Type} (l : Dict α) (k key : String) :
    aget (aremove l k) key = if k = key then none else aget l key := by
  induction l with
  | nil => simp [aremove, aget]
  | cons p rest ih =>
    obtain ⟨k1, v1⟩ := p
    by_cases h1 : k1 = k
    · subst h1
      by_cases h2 : k1 = key
      · subst h2
        simp [aremove, aget, ih]
      · simp [aremove, aget, h2, ih]
    · by_cases h2 : k1 = key
      · subst h2
        have hk : ¬ k = k1 := fun h => h1 h.symm
        simp [aremove, aget, h1, hk]
      · simp [aremove, aget, h1, h2, ih]

/-- Lookup distributes over append when the key misses the prefix. -/
theorem aget_append_of_none {α : Type} (l1 l2 : Dict α) (key : String)
    (h : aget l1 key = none) : aget (l1 ++ l2) key = aget l2 key := by
  induction l1 with
  | nil => simp
  | cons p rest ih =>
    obtain ⟨k1, v1⟩ := p
    by_cases h1 : k1 = key
    · rw [aget, if_pos h1] at h
      simp at h
    · rw [aget, if_neg h1] at h
      rw [List.cons_append, aget, if_neg h1]
      exact ih h

/-- Lookup distributes over append when the key hits the prefix. -/
theorem aget_append_of_some {α : Type} (l1 l2 : Dict α) (key : String) (v : α)
    (h : aget l1 key = some v) : aget (l1 ++ l2) key = some v := by
  induction l1 with
  | nil => simp [aget] at h
  | cons p rest ih =>
    obtain ⟨k1, v1⟩ := p
    by_cases h1 : k1 = key
    · rw [aget, if_pos h1] at h
      rw [List.cons_append, aget, if_pos h1]
      exact h
    · rw [aget, if_neg h1] at h
      rw [List.cons_append, aget, if_neg h1]
      exact ih h

/-- Lookup after `mkdir -p`: an existing folder is untouched, a missing
one appears empty. -/
theorem aget_diskMkdir (d : Dict Workspace) (k key : String) :
    aget (diskMkdir d k) key =
      if k = key then some ((aget d k).getD emptyWorkspace) else aget d key := by
  unfold diskMkdir
  cases hk : aget d k with
  | some w =>
    by_cases h : k = key
    · subst h; simp [hk]
    · simp [h]
  | none =>
    by_cases h : k = key
    · subst h
      rw [aget_append_of_none d _ k hk]
      simp [aget, hk]
    · cases hkey : aget d key with
      | some v => rw [aget_append_of_some d _ key v hkey]; simp [h, hkey]
      | none =>
        rw [aget_append_of_none d _ key hkey]
        have hk2 : ¬ key = k := fun hh => h hh.symm
        simp [aget, hk2, h, hkey]

/-- Ticket ids determine workspace folders injectively. -/
theorem folderOf_inj {a b : String} (h : folderOf a = folderOf b) : a = b := by
  unfold folderOf at h
  have hd := congrArg String.data h
  simp only [String.data_append] at hd
  exact congrArg String.mk (List.append_cancel_left hd)

/-- A rejected submission (no primary input) answers 400 and leaves
everything but the freshly made folder untouched. -/
theorem encode_start_rejected (s : ServerState) (t : String) (srt : Option String)
    (opts : Option JsonV) :
    encode_start s t none srt opts =
      ⟨.missingInput, { s with disk := diskMkdir s.disk (folderOf t) },
       [.mkdirFolder (folderOf t)]⟩ := rfl

/-- The JOBS dict after an accepted submission. -/
theorem start_jobs (s : ServerState) (t data : String) (srt : Option String)
    (opts : Option JsonV) :
    (encode_start s t (some data) srt opts).state.jobs =
      aset s.jobs t { status := .queued, folder := folderOf t } := by
  cases srt <;> rfl

/-- The queue after an accepted submission. -/
theorem start_queue (s : ServerState) (t data : String) (srt : Option String)
    (opts : Option JsonV) :
    (encode_start s t (some data) srt opts).state.jobQueue = s.jobQueue ++ [t] := by
  cases srt <;> rfl

/-- An accepted submission runs no external command. -/
theorem start_log (s : ServerState) (t data : String) (srt : Option String)
    (opts : Option JsonV) :
    (encode_start s t (some data) srt opts).state.log = s.log := by
  cases srt <;> rfl

/-- The response of an accepted submission. -/
theorem start_resp (s : ServerState) (t data : String) (srt : Option String)
    (opts : Option JsonV) :
    (encode_start s t (some data) srt opts).resp = .accepted t := by
  cases srt <;> rfl

/-- The workspace of the freshly submitted job on disk. -/
theorem start_disk_self (s : ServerState) (t data : String) (srt : Option String)
    (opts : Option JsonV) (hF : aget s.disk (folderOf t) = none) :
    aget (encode_start s t (some data) srt opts).state.disk (folderOf t) =
      some { input_file := some data, srt_file := srt,
             options_json := some (opts.getD (.jobj [])), output_mp4 := none } := by
  have hmk : aget (diskMkdir s.disk (folderOf t)) (folderOf t) = some emptyWorkspace := by
    rw [aget_diskMkdir, if_pos rfl, hF]; rfl
  cases srt with
  | none =>
    show aget (aupd (aupd (diskMkdir s.disk (folderOf t)) (folderOf t) _) (folderOf t) _)
        (folderOf t) = _
    rw [aget_aupd, if_pos rfl, aget_aupd, if_pos rfl, hmk]
    rfl
  | some srtData =>
    show aget (aupd (aupd (aupd (diskMkdir s.disk (folderOf t)) (folderOf t) _) (folderOf t) _)
        (folderOf t) _) (folderOf t) = _
    rw [aget_aupd, if_pos rfl, aget_aupd, if_pos rfl, aget_aupd, if_pos rfl, hmk]
    rfl

/-- Other folders are untouched by a submission. -/
theorem start_disk_other (s : ServerState) (t : String) (input srt : Option String)
    (opts : Option JsonV) (key : String) (hk : ¬ folderOf t = key) :
    aget (encode_start s t input srt opts).state.disk key = aget s.disk key := by
  have hmk : aget (diskMkdir s.disk (folderOf t)) key = aget s.disk key := by
    rw [aget_diskMkdir, if_neg hk]
  cases input with
  | none => exact hmk
  | some data =>
    cases srt with
    | none =>
      show aget (aupd (aupd (diskMkdir s.disk (folderOf t)) (folderOf t) _) (folderOf t) _)
          key = _
      rw [aget_aupd, if_neg hk, aget_aupd, if_neg hk, hmk]
    | some srtData =>
      show aget (aupd (aupd (aupd (diskMkdir s.disk (folderOf t)) (folderOf t) _)
          (folderOf t) _) (folderOf t) _) key = _
      rw [aget_aupd, if_neg hk, aget_aupd, if_neg hk, aget_aupd, if_neg hk, hmk]

/-- Anatomy of a successful dequeue-and-claim. -/
theorem worker_claim_claimed (s : ServerState) (w : String) (s1 : ServerState) (t : String)
    (h : worker_claim s w = .claimed s1 t) :
    ∃ rest j, s.jobQueue = t :: rest ∧ aget s.jobs t = some j ∧
      s1 = { s with
             jobQueue := rest,
             jobs := aset s.jobs t { j with worker := some w, status := .processing } } := by
  unfold worker_claim at h
  split at h
  · exact absurd h (by simp)
  next ticket rest hq =>
    split at h
    · exact absurd h (by simp)
    next j hj =>
      injection h with h1 h2
      subst h2
      exact ⟨rest, j, hq, hj, h1.symm⟩

/-- Anatomy of a skipped ticket (record already gone, line 34). -/
theorem worker_claim_skipped (s : ServerState) (w : String) (s1 : ServerState)
    (h : worker_claim s w = .skipped s1) :
    ∃ t rest, s.jobQueue = t :: rest ∧ aget s.jobs t = none ∧
      s1 = { s with jobQueue := rest } := by
  unfold worker_claim at h
  split at h
  · exact absurd h (by simp)
  next ticket rest hq =>
    split at h
    next hj =>
      injection h with h1
      exact ⟨ticket, rest, hq, hj, h1.symm⟩
    · exact absurd h (by simp)

/-- Anatomy of a successful result delivery. -/
theorem encode_result_file (s : ServerState) (t p n : String) (c : CleanupTask)
    (h : encode_result s t = (.fileResp p n, some c)) :
    ∃ j, aget s.jobs t = some j ∧ j.status = .done ∧ j.output_file = some p ∧
      c = ⟨t, j.folder⟩ ∧ n = t ++ ".mp4" := by
  unfold encode_result at h
  split at h
  · exact absurd h (by simp)
  next j hj =>
    split at h
    next hdone =>
      split at h
      next pp hout =>
        simp only [Prod.mk.injEq] at h
        obtain ⟨h1, h2⟩ := h
        injection h1 with hp hn
        injection h2 with hc
        exact ⟨j, hj, hdone, by rw [hout, hp], hc.symm, hn.symm⟩
      · exact absurd h (by simp)
    next hdone => exact absurd h (by simp)

/-- Anatomy of a worker-loop body that terminates normally: either the
record was gone (silent skip), or the job's options document was a
readable JSON object and the terminal write matches the invocation
outcome. -/
theorem worker_finish_shape (s : ServerState) (t : String) (invoke : InvokeOutcome)
    (s1 : ServerState) (h : worker_finish s t invoke = .ok s1) :
    (aget s.jobs t = none ∧ s1 = s) ∨
    ∃ j fields,
      aget s.jobs t = some j ∧
      (aget s.disk j.folder).bind (fun w => w.options_json) = some (.jobj fields) ∧
      ((∃ stderr ffout,
          invoke = .completed 0 stderr ffout ∧
          s1 = { s with
                 log := s.log ++ [workerCommandOf s j fields],
                 disk := aupd s.disk j.folder (fun w => { w with output_mp4 := ffout }),
                 jobs := aupd s.jobs t (fun jr =>
                   { jr with status := .done,
                             output_file := some (j.folder ++ "/output.mp4") }) }) ∨
       (∃ rc stderr ffout,
          invoke = .completed rc stderr ffout ∧ ¬ rc = 0 ∧
          s1 = { s with
                 log := s.log ++ [workerCommandOf s j fields],
                 disk := aupd s.disk j.folder (fun w => { w with output_mp4 := ffout }),
                 jobs := aupd s.jobs t (fun jr =>
                   { jr with status := .failed, error := some stderr }) }) ∨
       (∃ msg,
          invoke = .raised msg ∧
          s1 = { s with
                 log := s.log ++ [workerCommandOf s j fields],
                 jobs := aupd s.jobs t (fun jr =>
                   { jr with status := .failed, error := some msg }) })) := by
  unfold worker_finish at h
  split at h
  next hjob =>
    left
    injection h with h1
    exact ⟨hjob, h1.symm⟩
  next j hjob =>
    right
    split at h
    next hopt => exact absurd h (by simp)
    next fields hopt =>
      refine ⟨j, fields, hjob, hopt, ?_⟩
      split at h
      next rc stderr ffout =>
        split at h
        next hrc =>
          subst hrc
          injection h with h1
          exact Or.inl ⟨stderr, ffout, rfl, h1.symm⟩
        next hrc =>
          injection h with h1
          exact Or.inr (Or.inl ⟨rc, stderr, ffout, rfl, hrc, h1.symm⟩)
      next msg =>
        injection h with h1
        exact Or.inr (Or.inr ⟨msg, rfl, h1.symm⟩)
    next x hopt => exact absurd h (by simp)

/-- A terminal-status write by a worker preserves the invariant: it
touches one record (whose ticket cannot still be queued, since its
status is `processing`), keeps folders, and at most rewrites the
output file of a workspace. -/
theorem inv_of_finish_update (s : ServerState) (L : List (List JsonV))
    (D : Dict Workspace) (ticket : String) (j : JobRecord) (f : JobRecord → JobRecord)
    (hInv : StateInv s) (hj : aget s.jobs ticket = some j) (hp : j.status = .processing)
    (hff : ∀ jr, (f jr).folder = jr.folder)
    (hD : ∀ key w, aget s.disk key = some w →
        ∃ w2, aget D key = some w2 ∧ w2.input_file = w.input_file ∧
          w2.options_json = w.options_json) :
    StateInv { s with log := L, disk := D, jobs := aupd s.jobs ticket f } := by
  obtain ⟨hqr, hrf, hqw, hnd⟩ := hInv
  refine ⟨?_, ?_, ?_, ?_⟩
  · intro t ht
    obtain ⟨j2, hj2, hst⟩ := hqr t ht
    have hne : ¬ ticket = t := by
      intro he
      subst he
      rw [hj] at hj2
      injection hj2 with h1
      rw [← h1] at hst
      rw [hp] at hst
      exact absurd hst (by decide)
    refine ⟨j2, ?_, hst⟩
    show aget (aupd s.jobs ticket f) t = some j2
    rw [aget_aupd, if_neg hne]
    exact hj2
  · intro t jr hjr
    replace hjr : aget (aupd s.jobs ticket f) t = some jr := hjr
    rw [aget_aupd] at hjr
    by_cases he : ticket = t
    · subst he
      rw [if_pos rfl, hj] at hjr
      injection hjr with h1
      rw [← h1, hff]
      exact hrf ticket j hj
    · rw [if_neg he] at hjr
      exact hrf t jr hjr
  · intro t ht
    obtain ⟨w, hw, hwi, hwo⟩ := hqw t ht
    obtain ⟨w2, hw2, he1, he2⟩ := hD (folderOf t) w hw
    refine ⟨w2, hw2, ?_, ?_⟩
    · rw [he1]; exact hwi
    · rw [he2]; exact hwo
  · exact hnd

/-- Every atomic transition preserves the invariant. -/
theorem step_inv (s s1 : ServerState) (hInv : StateInv s) (hs : Step s s1) : StateInv s1 := by
  obtain ⟨hqr, hrf, hqw, hnd⟩ := hInv
  cases hs with
  | start ticket input srt opts hT hQ hF =>
    cases input with
    | none =>
      refine ⟨?_, ?_, ?_, ?_⟩
      · intro t ht
        exact hqr t ht
      · intro t j hj
        exact hrf t j hj
      · intro t ht
        obtain ⟨w, hw, hwi, hwo⟩ := hqw t ht
        have hne : ¬ folderOf ticket = folderOf t := by
          intro he
          have hte : ticket = t := folderOf_inj he
          subst hte
          exact hQ ht
        refine ⟨w, ?_, hwi, hwo⟩
        show aget (encode_start s ticket none srt opts).state.disk (folderOf t) = some w
        rw [start_disk_other s ticket none srt opts (folderOf t) hne]
        exact hw
      · exact hnd
    | some data =>
      have hjobs := start_jobs s ticket data srt opts
      have hqueue := start_queue s ticket data srt opts
      refine ⟨?_, ?_, ?_, ?_⟩
      · intro t ht
        rw [hqueue] at ht
        rw [hjobs]
        rcases List.mem_append.mp ht with hin | hsing
        · have hne : ¬ ticket = t := by
            intro he
            subst he
            obtain ⟨j, hj, _⟩ := hqr ticket hin
            rw [hT] at hj
            exact Option.noConfusion hj
          rw [aget_aset, if_neg hne]
          exact hqr t hin
        · have hts : t = ticket := by simpa using hsing
          subst hts
          rw [aget_aset, if_pos rfl]
          exact ⟨_, rfl, rfl⟩
      · intro t j hj
        rw [hjobs, aget_aset] at hj
        by_cases he : ticket = t
        · subst he
          rw [if_pos rfl] at hj
          injection hj with h1
          rw [← h1]
        · rw [if_neg he] at hj
          exact hrf t j hj
      · intro t ht
        rw [hqueue] at ht
        rcases List.mem_append.mp ht with hin | hsing
        · obtain ⟨w, hw, hwi, hwo⟩ := hqw t hin
          have hne : ¬ folderOf ticket = folderOf t := by
            intro he
            have hte : ticket = t := folderOf_inj he
            subst hte
            rw [hF] at hw
            exact Option.noConfusion hw
          refine ⟨w, ?_, hwi, hwo⟩
          rw [start_disk_other s ticket (some data) srt opts (folderOf t) hne]
          exact hw
        · have hts : t = ticket := by simpa using hsing
          subst hts
          exact ⟨_, start_disk_self s t data srt opts hF, rfl, rfl⟩
      · rw [hqueue, List.nodup_append]
        refine ⟨hnd, List.nodup_singleton _, ?_⟩
        intro a ha hb
        rw [List.mem_singleton] at hb
        subst hb
        exact hQ ha
  | claim w s1 ticket h =>
    obtain ⟨rest, j0, hq0, hj0, hs1⟩ := worker_claim_claimed s w s1 ticket h
    subst hs1
    have hticket_rest : ticket ∉ rest := by
      have h2 := hnd
      rw [hq0] at h2
      exact (List.nodup_cons.mp h2).1
    refine ⟨?_, ?_, ?_, ?_⟩
    · intro t ht
      replace ht : t ∈ rest := ht
      have htq : t ∈ s.jobQueue := by rw [hq0]; exact List.mem_cons_of_mem _ ht
      obtain ⟨j, hj, hjs⟩ := hqr t htq
      have hne : ¬ ticket = t := by
        intro he
        subst he
        exact hticket_rest ht
      refine ⟨j, ?_, hjs⟩
      show aget (aset s.jobs ticket _) t = some j
      rw [aget_aset, if_neg hne]
      exact hj
    · intro t j hj
      replace hj : aget (aset s.jobs ticket
          { j0 with worker := some w, status := .processing }) t = some j := hj
      rw [aget_aset] at hj
      by_cases he : ticket = t
      · subst he
        rw [if_pos rfl] at hj
        injection hj with h1
        rw [← h1]
        exact hrf ticket j0 hj0
      · rw [if_neg he] at hj
        exact hrf t j hj
    · intro t ht
      replace ht : t ∈ rest := ht
      exact hqw t (by rw [hq0]; exact List.mem_cons_of_mem _ ht)
    · have h2 := hnd
      rw [hq0] at h2
      exact (List.nodup_cons.mp h2).2
  | skip w s1 h =>
    obtain ⟨t0, rest, hq0, hj0, hs1⟩ := worker_claim_skipped s w s1 h
    subst hs1
    refine ⟨?_, ?_, ?_, ?_⟩
    · intro t ht
      exact hqr t (by rw [hq0]; exact List.mem_cons_of_mem _ ht)
    · intro t j hj
      exact hrf t j hj
    · intro t ht
      exact hqw t (by rw [hq0]; exact List.mem_cons_of_mem _ ht)
    · have h2 := hnd
      rw [hq0] at h2
      exact (List.nodup_cons.mp h2).2
  | finish ticket invoke j s1 hj hp h =>
    rcases worker_finish_shape s ticket invoke s1 h with ⟨hnone, hs1⟩ |
      ⟨j2, fields, hj2, hopt, hcases⟩
    · subst hs1
      exact ⟨hqr, hrf, hqw, hnd⟩
    · have hjj : j2 = j := by
        rw [hj] at hj2
        injection hj2 with h1
        exact h1.symm
      subst hjj
      have hDupd : ∀ (ffout : Option String) (key : String) (w : Workspace),
          aget s.disk key = some w →
          ∃ w2, aget (aupd s.disk j2.folder
              (fun wk => { wk with output_mp4 := ffout })) key = some w2 ∧
            w2.input_file = w.input_file ∧ w2.options_json = w.options_json := by
        intro ffout key w hw
        rw [aget_aupd]
        by_cases he : j2.folder = key
        · rw [if_pos he, hw]
          exact ⟨_, rfl, rfl, rfl⟩
        · rw [if_neg he, hw]
          exact ⟨w, rfl, rfl, rfl⟩
      rcases hcases with ⟨stderr, ffout, hinv, hs1⟩ | ⟨rc, stderr, ffout, hinv, hrc, hs1⟩ |
        ⟨msg, hinv, hs1⟩
      · subst hs1
        exact inv_of_finish_update s _ _ ticket j2 _ ⟨hqr, hrf, hqw, hnd⟩ hj hp
          (fun jr => rfl) (hDupd ffout)
      · subst hs1
        exact inv_of_finish_update s _ _ ticket j2 _ ⟨hqr, hrf, hqw, hnd⟩ hj hp
          (fun jr => rfl) (hDupd ffout)
      · subst hs1
        exact inv_of_finish_update s _ _ ticket j2 _ ⟨hqr, hrf, hqw, hnd⟩ hj hp
          (fun jr => rfl) (fun key w hw => ⟨w, hw, rfl, rfl⟩)
  | collect ticket p n c h =>
    obtain ⟨j, hj, hdone, hout, hc, hn⟩ := encode_result_file s ticket p n c h
    subst hc
    have hne_t : ∀ t, t ∈ s.jobQueue → ¬ ticket = t := by
      intro t ht he
      subst he
      obtain ⟨j2, hj2, hst⟩ := hqr ticket ht
      rw [hj] at hj2
      injection hj2 with h1
      rw [← h1] at hst
      rw [hdone] at hst
      exact absurd hst (by decide)
    refine ⟨?_, ?_, ?_, ?_⟩
    · intro t ht
      replace ht : t ∈ s.jobQueue := ht
      obtain ⟨j2, hj2, hst⟩ := hqr t ht
      refine ⟨j2, ?_, hst⟩
      show aget (aremove s.jobs ticket) t = some j2
      rw [aget_aremove, if_neg (hne_t t ht)]
      exact hj2
    · intro t jr hjr
      replace hjr : aget (aremove s.jobs ticket) t = some jr := hjr
      rw [aget_aremove] at hjr
      by_cases he : ticket = t
      · rw [if_pos he] at hjr
        exact Option.noConfusion hjr
      · rw [if_neg he] at hjr
        exact hrf t jr hjr
    · intro t ht
      replace ht : t ∈ s.jobQueue := ht
      obtain ⟨w, hw, hwi, hwo⟩ := hqw t ht
      have hfol : ¬ j.folder = folderOf t := by
        rw [hrf ticket j hj]
        intro he
        exact hne_t t ht (folderOf_inj he)
      refine ⟨w, ?_, hwi, hwo⟩
      show aget (aremove s.disk j.folder) (folderOf t) = some w
      rw [aget_aremove, if_neg hfol]
      exact hw
    · exact hnd

/-- The boot state satisfies the invariant. -/
theorem inv_init : StateInv init := by
  refine ⟨?_, ?_, ?_, ?_⟩
  · intro t ht
    simp [init] at ht
  · intro t j hj
    simp [init, aget] at hj
  · intro t ht
    simp [init] at ht
  · simp [init]

/-- Every reachable state satisfies the invariant. -/
theorem inv_reachable (s : ServerState) (h : Reachable s) : StateInv s := by
  unfold Reachable at h
  induction h with
  | refl => exact inv_init
  | tail hab hbc ih => exact step_inv _ _ ih hbc

/-- With a readable object options document, a zero exit code writes the
`done` terminal state. -/
theorem worker_finish_eq_done (s : ServerState) (t : String) (job : JobRecord)
    (fields : List (String × JsonV)) (stderr : String) (ffout : Option String)
    (hj : aget s.jobs t = some job)
    (hbind : (aget s.disk job.folder).bind (fun wk => wk.options_json) =
      some (.jobj fields)) :
    worker_finish s t (.completed 0 stderr ffout) =
      .ok { s with
            log := s.log ++ [workerCommandOf s job fields],
            disk := aupd s.disk job.folder (fun wk => { wk with output_mp4 := ffout }),
            jobs := aupd s.jobs t (fun jr =>
              { jr with status := .done,
                        output_file := some (job.folder ++ "/output.mp4") }) } := by
  simp [worker_finish, hj, hbind]

/-- With a readable object options document, a non-zero exit code writes
the `failed` terminal state carrying the captured stderr. -/
theorem worker_finish_eq_failed (s : ServerState) (t : String) (job : JobRecord)
    (fields : List (String × JsonV)) (rc : Int) (stderr : String) (ffout : Option String)
    (hrc : ¬ rc = 0) (hj : aget s.jobs t = some job)
    (hbind : (aget s.disk job.folder).bind (fun wk => wk.options_json) =
      some (.jobj fields)) :
    worker_finish s t (.completed rc stderr ffout) =
      .ok { s with
            log := s.log ++ [workerCommandOf s job fields],
            disk := aupd s.disk job.folder (fun wk => { wk with output_mp4 := ffout }),
            jobs := aupd s.jobs t (fun jr =>
              { jr with status := .failed, error := some stderr }) } := by
  simp [worker_finish, hj, hbind, hrc]

/-- With a readable object options document, an invocation that raises
writes the `failed` terminal state carrying the exception text. -/
theorem worker_finish_eq_raised (s : ServerState) (t : String) (job : JobRecord)
    (fields : List (String × JsonV)) (msg : String)
    (hj : aget s.jobs t = some job)
    (hbind : (aget s.disk job.folder).bind (fun wk => wk.options_json) =
      some (.jobj fields)) :
    worker_finish s t (.raised msg) =
      .ok { s with
            log := s.log ++ [workerCommandOf s job fields],
            jobs := aupd s.jobs t (fun jr =>
              { jr with status := .failed, error := some msg }) } := by
  simp [worker_finish, hj, hbind]

/-- A missing options file makes the loop body raise (line 50). -/
theorem worker_finish_eq_error_missing (s : ServerState) (t : String) (job : JobRecord)
    (hj : aget s.jobs t = some job)
    (hbind : (aget s.disk job.folder).bind (fun wk => wk.options_json) = none) :
    ∀ invoke, worker_finish s t invoke =
      .error (job.folder ++ "/options.json: FileNotFoundError") := by
  intro invoke
  simp [worker_finish, hj, hbind]

/-- A non-object options document makes the loop body raise (line 53). -/
theorem worker_finish_eq_error_nonobj (s : ServerState) (t : String) (job : JobRecord)
    (v : JsonV) (hj : aget s.jobs t = some job)
    (hbind : (aget s.disk job.folder).bind (fun wk => wk.options_json) = some v)
    (hno : ∀ fields, ¬ v = .jobj fields) :
    ∀ invoke, worker_finish s t invoke =
      .error (job.folder ++ "/options.json: AttributeError") := by
  intro invoke
  cases v with
  | jobj fields => exact absurd rfl (hno fields)
  | jnull => simp [worker_finish, hj, hbind]
  | jbool b => simp [worker_finish, hj, hbind]
  | jnum n => simp [worker_finish, hj, hbind]
  | jstr str => simp [worker_finish, hj, hbind]
  | jarr xs => simp [worker_finish, hj, hbind]

/-- The two sequential replaces of line 66 equal the one-pass escape. -/
theorem replace_escape_eq (l : List Char) :
    replaceChar ':' ['\\', ':'] (replaceChar '\\' ['\\', '\\'] l) = specEscapeChars l := by
  induction l with
  | nil => rfl
  | cons c cs ih =>
    by_cases h1 : c = '\\'
    · subst h1
      have hne : ('\\' : Char) ≠ ':' := by decide
      simp [replaceChar, specEscapeChars, hne, ih]
    · by_cases h2 : c = ':'
      · subst h2
        have hne : (':' : Char) ≠ '\\' := by decide
        simp [replaceChar, specEscapeChars, hne, ih]
      · simp [replaceChar, specEscapeChars, h1, h2, ih]

/-- The code's escaping equals the specification-side escaping: every
backslash and every colon gets one preceding backslash. -/
theorem escapeForFilter_eq_specEscape (p : String) :
    escapeForFilter p = specEscape p :=
  congrArg String.mk (replace_escape_eq p.data)

/-- The constructed ffmpeg argument list, slot by slot. -/
theorem worker_command_eq (o : JsonV) (vf inF outF : String) :
    worker_command o vf inF outF =
      [.jstr "ffmpeg", .jstr "-y", .jstr "-i", .jstr inF, .jstr "-vf", .jstr vf,
       .jstr "-c:v", .jstr "libx264",
       .jstr "-preset", (optGet o "ffmpeg_preset").getD (.jstr "medium"),
       .jstr "-profile:v", .jstr "high", .jstr "-level", .jstr "4.2",
       .jstr "-pix_fmt", .jstr "yuv420p",
       .jstr "-crf", .jstr (pyStr ((optGet o "constant_rate_factor").getD (.jnum 23))),
       .jstr "-movflags", .jstr "+faststart", .jstr "-c:a", .jstr "aac",
       .jstr "-b:a", .jstr (pyStr ((optGet o "audio_bitrate").getD (.jnum 128)) ++ "k"),
       .jstr "-ac", .jstr (if pyTruthy ((optGet o "stereo").getD (.jbool true))
         then "2" else "1"),
       .jstr outF] := rfl

/-- A terminal write through `aupd` moves one processing record along
the chain and leaves every other record unchanged. -/
theorem statusStep_of_aupd (s : ServerState) (ticket t : String) (j : JobRecord)
    (f : JobRecord → JobRecord) (hj : aget s.jobs ticket = some j)
    (hp : j.status = .processing)
    (hfst : (f j).status = .done ∨ (f j).status = .failed) :
    (∀ ja j1, aget s.jobs t = some ja → aget (aupd s.jobs ticket f) t = some j1 →
      statusStep ja.status j1.status) ∧
    (aget s.jobs t = none → ∀ j1, aget (aupd s.jobs ticket f) t = some j1 →
      j1.status = .queued) := by
  constructor
  · intro ja j1 h1 h2
    rw [aget_aupd] at h2
    by_cases he : ticket = t
    · subst he
      rw [if_pos rfl, hj] at h2
      injection h2 with he2
      rw [hj] at h1
      injection h1 with he1
      right; right
      refine ⟨by rw [← he1]; exact hp, ?_⟩
      rw [← he2]
      exact hfst
    · rw [if_neg he] at h2
      rw [h1] at h2
      injection h2 with he2
      exact Or.inl (by rw [he2])
  · intro h0 j1 h2
    rw [aget_aupd] at h2
    by_cases he : ticket = t
    · subst he
      rw [hj] at h0
      exact Option.noConfusion h0
    · rw [if_neg he] at h2
      rw [h0] at h2
      exact Option.noConfusion h2

/-- C8: for every job processed by a worker, the video-filter expression
is exactly the size-capping scale filter when no subtitle input is
present in the workspace (`vf_for false`), and with a subtitle present
it is the scale filter followed by a subtitle burn-in whose embedded
path is the subtitle path with every backslash and every colon escaped
by a preceding backslash (`specEscape`); the code's two-replace
escaping (`escapeForFilter`, line 66) coincides with that one-pass
escaping.  `worker_finish` computes its `-vf` argument as
`vf_for` of the workspace's subtitle-file existence (see
`workerCommandOf`). -/
theorem C8_video_filter (p : String) :
    vf_for false p = "scale=\x27min(3840,iw)\x27:-2" ∧
    vf_for true p =
      "scale=\x27min(3840,iw)\x27:-2,subtitles=\x27" ++ specEscape p ++ "\x27" ∧
    escapeForFilter p = specEscape p := by
  refine ⟨rfl, ?_, escapeForFilter_eq_specEscape p⟩
  show scaleFilter ++ ",subtitles=\x27" ++ escapeForFilter p ++ "\x27" = _
  rw [escapeForFilter_eq_specEscape]
  rfl

/-- C9: with the empty options document the worker builds the command
with all defaults (`-preset medium`, `-crf 23`, `-ac 2`,
`-b:a 128k`), and each individually missing field falls back to its
default at its slot of the argument list. -/
theorem C9_default_options (fields : List (String × JsonV)) (vf inF outF : String) :
    (worker_command (.jobj []) vf inF outF =
      [.jstr "ffmpeg", .jstr "-y", .jstr "-i", .jstr inF, .jstr "-vf", .jstr vf,
       .jstr "-c:v", .jstr "libx264", .jstr "-preset", .jstr "medium",
       .jstr "-profile:v", .jstr "high", .jstr "-level", .jstr "4.2",
       .jstr "-pix_fmt", .jstr "yuv420p", .jstr "-crf", .jstr "23",
       .jstr "-movflags", .jstr "+faststart", .jstr "-c:a", .jstr "aac",
       .jstr "-b:a", .jstr "128k", .jstr "-ac", .jstr "2", .jstr outF]) ∧
    (optGet (.jobj fields) "ffmpeg_preset" = none →
      (worker_command (.jobj fields) vf inF outF)[8]? = some (.jstr "-preset") ∧
      (worker_command (.jobj fields) vf inF outF)[9]? = some (.jstr "medium")) ∧
    (optGet (.jobj fields) "constant_rate_factor" = none →
      (worker_command (.jobj fields) vf inF outF)[16]? = some (.jstr "-crf") ∧
      (worker_command (.jobj fields) vf inF outF)[17]? = some (.jstr "23")) ∧
    (optGet (.jobj fields) "stereo" = none →
      (worker_command (.jobj fields) vf inF outF)[24]? = some (.jstr "-ac") ∧
      (worker_command (.jobj fields) vf inF outF)[25]? = some (.jstr "2")) ∧
    (optGet (.jobj fields) "audio_bitrate" = none →
      (worker_command (.jobj fields) vf inF outF)[22]? = some (.jstr "-b:a") ∧
      (worker_command (.jobj fields) vf inF outF)[23]? = some (.jstr "128k")) := by
  refine ⟨rfl, ?_, ?_, ?_, ?_⟩
  · intro h
    rw [worker_command_eq, h]
    exact ⟨rfl, rfl⟩
  · intro h
    rw [worker_command_eq, h]
    exact ⟨rfl, rfl⟩
  · intro h
    rw [worker_command_eq, h]
    exact ⟨rfl, rfl⟩
  · intro h
    rw [worker_command_eq, h]
    exact ⟨rfl, rfl⟩

/-- C9 witness: the empty options document instantiates every default. -/
theorem C9_witness :
    (worker_command (.jobj []) "VF" "IN" "OUT")[9]? = some (.jstr "medium") ∧
    (worker_command (.jobj []) "VF" "IN" "OUT")[17]? = some (.jstr "23") ∧
    (worker_command (.jobj []) "VF" "IN" "OUT")[25]? = some (.jstr "2") ∧
    (worker_command (.jobj []) "VF" "IN" "OUT")[23]? = some (.jstr "128k") :=
  ⟨((C9_default_options [] "VF" "IN" "OUT").2.1 rfl).2,
   ((C9_default_options [] "VF" "IN" "OUT").2.2.1 rfl).2,
   ((C9_default_options [] "VF" "IN" "OUT").2.2.2.1 rfl).2,
   ((C9_default_options [] "VF" "IN" "OUT").2.2.2.2 rfl).2⟩

/-- C2 counterexample: submitting with no primary input against the
boot state is rejected with a 400 and inserts no record and enqueues
no ticket, but the claim's "no workspace is created on disk" is false:
the folder was already created at line 116, before the check at
line 120, and is left behind. -/
theorem C2_counterexample :
    (encode_start init "t1" none none none).resp = .missingInput ∧
    startHttpCode (encode_start init "t1" none none none).resp = 400 ∧
    (encode_start init "t1" none none none).state.jobs = init.jobs ∧
    (encode_start init "t1" none none none).state.jobQueue = init.jobQueue ∧
    ¬ (encode_start init "t1" none none none).state.disk = init.disk ∧
    aget (encode_start init "t1" none none none).state.disk (folderOf "t1") =
      some emptyWorkspace := by
  refine ⟨rfl, rfl, rfl, rfl, ?_, rfl⟩
  intro hdisk
  have h1 : aget (encode_start init "t1" none none none).state.disk (folderOf "t1") =
      some emptyWorkspace := rfl
  rw [hdisk] at h1
  simp [init, aget] at h1

/-- C2 amended: a submission with no primary input is rejected with a
400 client error; no job record is inserted and no ticket is enqueued,
but the workspace folder has already been created on disk (empty) by
the time of the rejection, and remains. -/
theorem C2_amended (s : ServerState) (t : String) (srt : Option String)
    (opts : Option JsonV) :
    (encode_start s t none srt opts).resp = .missingInput ∧
    startHttpCode (encode_start s t none srt opts).resp = 400 ∧
    (encode_start s t none srt opts).state.jobs = s.jobs ∧
    (encode_start s t none srt opts).state.jobQueue = s.jobQueue ∧
    (encode_start s t none srt opts).state.log = s.log ∧
    (encode_start s t none srt opts).state.disk = diskMkdir s.disk (folderOf t) ∧
    (encode_start s t none srt opts).trace = [.mkdirFolder (folderOf t)] :=
  ⟨rfl, rfl, rfl, rfl, rfl, rfl, rfl⟩

/-- C7: a ticket with no record in JOBS gets a 404 `NotFound` from both
the status endpoint and the result endpoint; the status handler is a
pure read, and the result handler schedules no cleanup (`none`), so
neither call mutates any state. -/
theorem C7_unknown_ticket (s : ServerState) (t : String)
    (h : aget s.jobs t = none) :
    encode_status s t = .notFound ∧
    statusHttpCode (encode_status s t) = 404 ∧
    encode_result s t = (.notFound, none) ∧
    resultHttpCode (encode_result s t).1 = 404 := by
  have h1 : encode_status s t = .notFound := by
    simp [encode_status, h]
  have h2 : encode_result s t = (.notFound, none) := by
    simp [encode_result, h]
  exact ⟨h1, by rw [h1]; rfl, h2, by rw [h2]; rfl⟩

/-- C7 witness: an arbitrary ticket against the boot state. -/
theorem C7_witness :
    encode_status init "missing" = .notFound ∧
    statusHttpCode (encode_status init "missing") = 404 ∧
    encode_result init "missing" = (.notFound, none) ∧
    resultHttpCode (encode_result init "missing").1 = 404 :=
  C7_unknown_ticket init "missing" rfl

/-- C6: for a known ticket whose status is `queued`, `processing` or
`failed`, the result endpoint answers the 400 `NotReady` error
(`Job not completed`), distinct from the 404 `NotFound`, schedules no
cleanup, and never hands out a file; a file response occurs only when
the status is `done`. -/
theorem C6_not_ready (s : ServerState) (t : String) (j : JobRecord)
    (hj : aget s.jobs t = some j) :
    ((j.status = .queued ∨ j.status = .processing ∨ j.status = .failed) →
      encode_result s t = (.notReady, none) ∧
      resultHttpCode (encode_result s t).1 = 400) ∧
    (∀ p n c, encode_result s t = (.fileResp p n, c) → j.status = .done) ∧
    resultHttpCode ResultResp.notReady = 400 ∧
    resultHttpCode ResultResp.notFound = 404 := by
  refine ⟨?_, ?_, rfl, rfl⟩
  · intro hst
    have hnd : ¬ j.status = Status.done := by
      rcases hst with h | h | h <;> rw [h] <;> decide
    have he : encode_result s t = (.notReady, none) := by
      simp [encode_result, hj, hnd]
    exact ⟨he, by rw [he]; rfl⟩
  · intro p n c hres
    by_cases hd : j.status = .done
    · exact hd
    · simp only [encode_result, hj] at hres
      rw [if_neg hd] at hres
      exact absurd hres (by simp)

/-- C6 witness: a queued job answers `NotReady` with a 400. -/
theorem C6_witness :
    encode_result sampleQueuedState "t1" = (.notReady, none) ∧
    resultHttpCode (encode_result sampleQueuedState "t1").1 = 400 :=
  (C6_not_ready sampleQueuedState "t1" sampleQueuedJob rfl).1 (Or.inl rfl)

/-- C5: once a ticket's result has been delivered (a file response with
its scheduled cleanup), running that cleanup removes the job record
and destroys the workspace folder, and the next result request for the
same ticket answers 404 `NotFound` (ticket ids are fresh uuids and are
never reissued, so the record never reappears). -/
theorem C5_at_most_once (s : ServerState) (t p n : String) (c : CleanupTask)
    (h : encode_result s t = (.fileResp p n, some c)) :
    aget (runCleanup s c).jobs t = none ∧
    aget (runCleanup s c).disk c.folder = none ∧
    encode_result (runCleanup s c) t = (.notFound, none) ∧
    resultHttpCode (encode_result (runCleanup s c) t).1 = 404 := by
  obtain ⟨j, hj, hdone, hout, hc, hn⟩ := encode_result_file s t p n c h
  subst hc
  have h1 : aget (aremove s.jobs t) t = none := by rw [aget_aremove, if_pos rfl]
  have h2 : aget (aremove s.disk j.folder) j.folder = none := by
    rw [aget_aremove, if_pos rfl]
  have h3 : encode_result (runCleanup s ⟨t, j.folder⟩) t = (.notFound, none) := by
    simp [encode_result, runCleanup, h1]
  exact ⟨h1, h2, h3, by rw [h3]; rfl⟩

/-- C5 witness: collecting the sample done job once destroys it and the
second request is a 404. -/
theorem C5_witness :
    aget (runCleanup sampleDoneState ⟨"t2", folderOf "t2"⟩).jobs "t2" = none ∧
    aget (runCleanup sampleDoneState ⟨"t2", folderOf "t2"⟩).disk (folderOf "t2") = none ∧
    encode_result (runCleanup sampleDoneState ⟨"t2", folderOf "t2"⟩) "t2" =
      (.notFound, none) ∧
    resultHttpCode (encode_result (runCleanup sampleDoneState ⟨"t2", folderOf "t2"⟩)
      "t2").1 = 404 :=
  C5_at_most_once sampleDoneState "t2" (folderOf "t2" ++ "/output.mp4") ("t2" ++ ".mp4")
    ⟨"t2", folderOf "t2"⟩ rfl

/-- C4: for a job whose options document is a readable JSON object,
exit code 0 ends the job `done` with its output location set to the
produced file; a non-zero exit code ends it `failed` with the captured
stderr; an invocation that raises ends it `failed` with the exception
text.  In all three cases the loop body returns normally (`Except.ok`),
so the worker proceeds to dequeue the next ticket. -/
theorem C4_terminal_outcomes (s : ServerState) (t : String) (job : JobRecord)
    (w : Workspace) (fields : List (String × JsonV))
    (hj : aget s.jobs t = some job) (hw : aget s.disk job.folder = some w)
    (hopt : w.options_json = some (.jobj fields)) :
    (∀ stderr ffout, ∃ s1, worker_finish s t (.completed 0 stderr ffout) = .ok s1 ∧
      ∃ j1, aget s1.jobs t = some j1 ∧ j1.status = .done ∧
        j1.output_file = some (job.folder ++ "/output.mp4")) ∧
    (∀ rc stderr ffout, ¬ rc = 0 →
      ∃ s1, worker_finish s t (.completed rc stderr ffout) = .ok s1 ∧
        ∃ j1, aget s1.jobs t = some j1 ∧ j1.status = .failed ∧
          j1.error = some stderr) ∧
    (∀ msg, ∃ s1, worker_finish s t (.raised msg) = .ok s1 ∧
      ∃ j1, aget s1.jobs t = some j1 ∧ j1.status = .failed ∧ j1.error = some msg) := by
  have hbind : (aget s.disk job.folder).bind (fun wk => wk.options_json) =
      some (.jobj fields) := by
    rw [hw]
    simpa using hopt
  refine ⟨?_, ?_, ?_⟩
  · intro stderr ffout
    refine ⟨_, worker_finish_eq_done s t job fields stderr ffout hj hbind, ?_⟩
    have hg : aget (aupd s.jobs t (fun jr =>
        { jr with status := Status.done,
                  output_file := some (job.folder ++ "/output.mp4") })) t =
        some { job with
               status := Status.done,
               output_file := some (job.folder ++ "/output.mp4") } := by
      rw [aget_aupd, if_pos rfl, hj]
      rfl
    exact ⟨_, hg, rfl, rfl⟩
  · intro rc stderr ffout hrc
    refine ⟨_, worker_finish_eq_failed s t job fields rc stderr ffout hrc hj hbind, ?_⟩
    have hg : aget (aupd s.jobs t (fun jr =>
        { jr with status := Status.failed, error := some stderr })) t =
        some { job with status := Status.failed, error := some stderr } := by
      rw [aget_aupd, if_pos rfl, hj]
      rfl
    exact ⟨_, hg, rfl, rfl⟩
  · intro msg
    refine ⟨_, worker_finish_eq_raised s t job fields msg hj hbind, ?_⟩
    have hg : aget (aupd s.jobs t (fun jr =>
        { jr with status := Status.failed, error := some msg })) t =
        some { job with status := Status.failed, error := some msg } := by
      rw [aget_aupd, if_pos rfl, hj]
      rfl
    exact ⟨_, hg, rfl, rfl⟩

/-- C4 witness: a failing invocation on the sample processing job ends
it `failed` with the captured stderr and the loop body returns. -/
theorem C4_witness :
    ∃ s1, worker_finish sampleProcState "t3" (.completed 1 "boom" none) = .ok s1 ∧
      ∃ j1, aget s1.jobs "t3" = some j1 ∧ j1.status = .failed ∧
        j1.error = some "boom" :=
  (C4_terminal_outcomes sampleProcState "t3" sampleProcJob
    { input_file := some "vid", srt_file := none,
      options_json := some (.jobj []), output_mp4 := none } [] rfl rfl rfl).2.1
    1 "boom" none (by decide)

/-- C1 counterexample: a fully API-reachable scenario (submit with
options text `[]`, worker claims the ticket) in which the loop body
raises — `options.get` on a non-dict document (line 53) is outside the
`try` of line 90 — so the exception is not converted into a `failed`
status: the loop body does not return normally, the worker thread
terminates, and the job stays `processing` forever. -/
theorem C1_counterexample :
    worker_claim crashStartState "JobWorker-1" = .claimed crashClaimedState "t1" ∧
    worker_finish crashClaimedState "t1" (.completed 0 "" (some "out")) =
      .error (folderOf "t1" ++ "/options.json: AttributeError") ∧
    (∀ s1, ¬ worker_finish crashClaimedState "t1" (.completed 0 "" (some "out")) =
      .ok s1) ∧
    (∃ j, aget crashClaimedState.jobs "t1" = some j ∧ j.status = .processing) := by
  refine ⟨rfl, rfl, ?_, ⟨_, rfl, rfl⟩⟩
  intro s1 hcontra
  exact Except.noConfusion
    ((rfl : worker_finish crashClaimedState "t1" (.completed 0 "" (some "out")) =
      .error (folderOf "t1" ++ "/options.json: AttributeError")).symm.trans hcontra)

/-- C1 amended: the `try` of line 90 contains only the external
invocation, so an exception raised by `subprocess.run` is caught and
converted into `failed` and the loop body returns normally (the worker
resumes); but an exception raised earlier while loading the job's
options document — the file is missing or unreadable (line 50), or it
holds a non-object document (line 53) — is not caught: it propagates
out of the loop body uncaught and terminates that worker, leaving the
job's record as it was (status `processing`). -/
theorem C1_amended (s : ServerState) (t : String) (job : JobRecord)
    (hj : aget s.jobs t = some job) :
    ((∃ fields, (aget s.disk job.folder).bind (fun wk => wk.options_json) =
        some (.jobj fields)) →
      ∀ invoke, ∃ s1, worker_finish s t invoke = .ok s1) ∧
    ((aget s.disk job.folder).bind (fun wk => wk.options_json) = none →
      ∀ invoke, worker_finish s t invoke =
        .error (job.folder ++ "/options.json: FileNotFoundError")) ∧
    (∀ v, (aget s.disk job.folder).bind (fun wk => wk.options_json) = some v →
      (∀ fields, ¬ v = .jobj fields) →
      ∀ invoke, worker_finish s t invoke =
        .error (job.folder ++ "/options.json: AttributeError")) := by
  refine ⟨?_, ?_, ?_⟩
  · rintro ⟨fields, hbind⟩ invoke
    cases invoke with
    | completed rc stderr ffout =>
      by_cases hrc : rc = 0
      · subst hrc
        exact ⟨_, worker_finish_eq_done s t job fields stderr ffout hj hbind⟩
      · exact ⟨_, worker_finish_eq_failed s t job fields rc stderr ffout hrc hj hbind⟩
    | raised msg =>
      exact ⟨_, worker_finish_eq_raised s t job fields msg hj hbind⟩
  · intro hbind
    exact worker_finish_eq_error_missing s t job hj hbind
  · intro v hbind hno
    exact worker_finish_eq_error_nonobj s t job v hj hbind hno

/-- C1 witness: in the reachable crash scenario, every invocation
outcome leaves the loop body raising the uncaught `AttributeError`. -/
theorem C1_witness :
    worker_finish crashClaimedState "t1" (.raised "tool missing") =
      .error (folderOf "t1" ++ "/options.json: AttributeError") :=
  (C1_amended crashClaimedState "t1"
    { status := .processing, folder := folderOf "t1", output_file := none,
      error := none, worker := some "JobWorker-1" } rfl).2.2
    (.jarr []) rfl (fun _ hcon => JsonV.noConfusion hcon) (.raised "tool missing")

/-- C3: along every transition out of a reachable state, each job
record's status either stays put or moves one link along
`queued → processing → (done | failed)` — a record present before and
after never skips `processing` and never reverses (in particular
`done` and `failed` admit no further change while the record exists) —
and a record that appears was just created with status `queued`. -/
theorem C3_status_chain (s s1 : ServerState) (hr : Reachable s) (hs : Step s s1)
    (t : String) :
    (∀ j j1, aget s.jobs t = some j → aget s1.jobs t = some j1 →
      statusStep j.status j1.status) ∧
    (aget s.jobs t = none → ∀ j1, aget s1.jobs t = some j1 →
      j1.status = .queued) := by
  obtain ⟨hqr, hrf, hqw, hnd⟩ := inv_reachable s hr
  cases hs with
  | start ticket input srt opts hT hQ hF =>
    cases input with
    | none =>
      constructor
      · intro j j1 h1 h2
        replace h2 : aget s.jobs t = some j1 := h2
        rw [h1] at h2
        injection h2 with he
        exact Or.inl (by rw [he])
      · intro h0 j1 h2
        replace h2 : aget s.jobs t = some j1 := h2
        rw [h0] at h2
        exact Option.noConfusion h2
    | some data =>
      have hjobs := start_jobs s ticket data srt opts
      constructor
      · intro j j1 h1 h2
        rw [hjobs, aget_aset] at h2
        by_cases he : ticket = t
        · subst he
          rw [hT] at h1
          exact Option.noConfusion h1
        · rw [if_neg he] at h2
          rw [h1] at h2
          injection h2 with he2
          exact Or.inl (by rw [he2])
      · intro h0 j1 h2
        rw [hjobs, aget_aset] at h2
        by_cases he : ticket = t
        · rw [if_pos he] at h2
          injection h2 with he2
          rw [← he2]
        · rw [if_neg he] at h2
          rw [h0] at h2
          exact Option.noConfusion h2
  | claim w s1 ticket h =>
    obtain ⟨rest, j0, hq0, hj0, hs1⟩ := worker_claim_claimed s w s1 ticket h
    subst hs1
    have hq0st : j0.status = .queued := by
      obtain ⟨jq, hjq, hst⟩ := hqr ticket (by rw [hq0]; exact List.mem_cons_self _ _)
      rw [hj0] at hjq
      injection hjq with he
      rw [he]
      exact hst
    constructor
    · intro j j1 h1 h2
      replace h2 : aget (aset s.jobs ticket
          { j0 with worker := some w, status := .processing }) t = some j1 := h2
      rw [aget_aset] at h2
      by_cases he : ticket = t
      · subst he
        rw [if_pos rfl] at h2
        injection h2 with he2
        rw [hj0] at h1
        injection h1 with he1
        right; left
        refine ⟨by rw [← he1]; exact hq0st, by rw [← he2]⟩
      · rw [if_neg he] at h2
        rw [h1] at h2
        injection h2 with he2
        exact Or.inl (by rw [he2])
    · intro h0 j1 h2
      replace h2 : aget (aset s.jobs ticket
          { j0 with worker := some w, status := .processing }) t = some j1 := h2
      rw [aget_aset] at h2
      by_cases he : ticket = t
      · subst he
        rw [hj0] at h0
        exact Option.noConfusion h0
      · rw [if_neg he] at h2
        rw [h0] at h2
        exact Option.noConfusion h2
  | skip w s1 h =>
    obtain ⟨t0, rest, hq0, hj0, hs1⟩ := worker_claim_skipped s w s1 h
    subst hs1
    constructor
    · intro j j1 h1 h2
      replace h2 : aget s.jobs t = some j1 := h2
      rw [h1] at h2
      injection h2 with he
      exact Or.inl (by rw [he])
    · intro h0 j1 h2
      replace h2 : aget s.jobs t = some j1 := h2
      rw [h0] at h2
      exact Option.noConfusion h2
  | finish ticket invoke j s1 hj hp h =>
    rcases worker_finish_shape s ticket invoke s1 h with ⟨hnone, hs1⟩ |
      ⟨j2, fields, hj2, hopt, hcases⟩
    · subst hs1
      constructor
      · intro ja j1 h1 h2
        rw [h1] at h2
        injection h2 with he
        exact Or.inl (by rw [he])
      · intro h0 j1 h2
        rw [h0] at h2
        exact Option.noConfusion h2
    · have hjj : j2 = j := by
        rw [hj] at hj2
        injection hj2 with he
        exact he.symm
      subst hjj
      rcases hcases with ⟨stderr, ffout, hinv, hs1⟩ |
        ⟨rc, stderr, ffout, hinv, hrc, hs1⟩ | ⟨msg, hinv, hs1⟩
      · subst hs1
        exact statusStep_of_aupd s ticket t j2 _ hj hp (Or.inl rfl)
      · subst hs1
        exact statusStep_of_aupd s ticket t j2 _ hj hp (Or.inr rfl)
      · subst hs1
        exact statusStep_of_aupd s ticket t j2 _ hj hp (Or.inr rfl)
  | collect ticket p n c h =>
    obtain ⟨j, hj, hdone, hout, hc, hn⟩ := encode_result_file s ticket p n c h
    subst hc
    constructor
    · intro ja j1 h1 h2
      replace h2 : aget (aremove s.jobs ticket) t = some j1 := h2
      rw [aget_aremove] at h2
      by_cases he : ticket = t
      · rw [if_pos he] at h2
        exact Option.noConfusion h2
      · rw [if_neg he] at h2
        rw [h1] at h2
        injection h2 with he2
        exact Or.inl (by rw [he2])
    · intro h0 j1 h2
      replace h2 : aget (aremove s.jobs ticket) t = some j1 := h2
      rw [aget_aremove] at h2
      by_cases he : ticket = t
      · rw [if_pos he] at h2
        exact Option.noConfusion h2
      · rw [if_neg he] at h2
        rw [h0] at h2
        exact Option.noConfusion h2

/-- C3 witness: submitting against the boot state creates the record in
status `queued` (the chain's entry point). -/
theorem C3_witness :
    ∃ j1, aget (encode_start init "t1" (some "vid") none none).state.jobs "t1" =
      some j1 ∧ j1.status = .queued := by
  have h := (C3_status_chain init (encode_start init "t1" (some "vid") none none).state
    Relation.ReflTransGen.refl
    (Step.start init "t1" (some "vid") none none rfl (by simp [init]) rfl) "t1").2 rfl
  exact ⟨_, rfl, h _ rfl⟩

/-- C10: an accepted submission performs its effects in order — the
primary input is saved, the subtitle is saved when supplied, the
options document (the parse result, or the empty object when the
options text failed to parse) is written, and the job record is
inserted, all strictly before the ticket is enqueued; consequently in
every reachable state each queued ticket has a job record (status
`queued`) and a workspace holding the primary input and a written,
well-formed options document. -/
theorem C10_populate_before_enqueue :
    (∀ (s : ServerState) (t data : String) (srt : Option String)
        (opts : Option JsonV),
      (encode_start s t (some data) srt opts).resp = .accepted t ∧
      ∃ pre, (encode_start s t (some data) srt opts).trace = pre ++ [.enqueue t] ∧
        StartEvent.saveInput (folderOf t) ∈ pre ∧
        StartEvent.writeOptions (folderOf t) (opts.getD (.jobj [])) ∈ pre ∧
        StartEvent.insertJob t ∈ pre ∧
        (∀ srtData, srt = some srtData → StartEvent.saveSrt (folderOf t) ∈ pre)) ∧
    (∀ s, Reachable s → ∀ t ∈ s.jobQueue,
      ∃ j w, aget s.jobs t = some j ∧ j.status = .queued ∧
        aget s.disk (folderOf t) = some w ∧ w.input_file.isSome = true ∧
        w.options_json.isSome = true) := by
  constructor
  · intro s t data srt opts
    refine ⟨start_resp s t data srt opts, ?_⟩
    cases srt with
    | none =>
      refine ⟨[.mkdirFolder (folderOf t), .saveInput (folderOf t),
        .writeOptions (folderOf t) (opts.getD (.jobj [])), .insertJob t],
        rfl, by simp, by simp, by simp, ?_⟩
      intro srtData hcon
      exact absurd hcon (by simp)
    | some srtData =>
      refine ⟨[.mkdirFolder (folderOf t), .saveInput (folderOf t),
        .saveSrt (folderOf t),
        .writeOptions (folderOf t) (opts.getD (.jobj [])), .insertJob t],
        rfl, by simp, by simp, by simp, ?_⟩
      intro sd hsd
      simp
  · intro s hr t ht
    obtain ⟨hqr, hrf, hqw, hnd⟩ := inv_reachable s hr
    obtain ⟨j, hj, hst⟩ := hqr t ht
    obtain ⟨w, hw, hwi, hwo⟩ := hqw t ht
    exact ⟨j, w, hj, hst, hw, hwi, hwo⟩

/-- C10 witness: after one concrete accepted submission, the enqueued
ticket's record and populated workspace are in place. -/
theorem C10_witness :
    ∃ j w,
      aget (encode_start init "t9" (some "vid") none none).state.jobs "t9" = some j ∧
      j.status = .queued ∧
      aget (encode_start init "t9" (some "vid") none none).state.disk
        (folderOf "t9") = some w ∧
      w.input_file.isSome = true ∧ w.options_json.isSome = true := by
  refine C10_populate_before_enqueue.2
    (encode_start init "t9" (some "vid") none none).state ?_ "t9" ?_
  · exact Relation.ReflTransGen.single
      (Step.start init "t9" (some "vid") none none rfl (by simp [init]) rfl)
  · rw [start_queue]
    simp [init]
